import Mathlib

/-!
# Verification of the asserter rule engine (`src/asserter/index.ts`)

A shallow embedding of the architecture-conformance rule engine:
dragee dependency resolution, rule execution, and report aggregation,
followed by theorems settling the specification claims.

TypeScript arrays become `List`, optional fields become `Option`, the
`RuleResult` tagged union becomes an inductive type, and the in-place
`ruleId` stamping mutations become pure reconstruction of the result
values.
-/

set_option autoImplicit false

/-- Modelled from the spec: the `Dragee` type lives in the `common` module,
which is not part of this repository slice.  A dragee is a named entity with
an optional dependency mapping; only the mapping's keys (dependency names, in
iteration order) are consumed by this module, so the opaque metadata values
are dropped and `depends_on` is the ordered key list. -/
structure Dragee where
  name : String
  depends_on : Option (List String)
deriving DecidableEq, Repr

/-- `RuleError = { ruleId?, message, drageeName }`. -/
structure RuleError where
  ruleId : Option String
  message : String
  drageeName : String
deriving DecidableEq, Repr

/-- `RuleResult = SuccessfulRuleResult | FailedRuleResult`: a tagged union on
the `pass` discriminant, with an optional `ruleId` on both variants and an
error payload on the failed one. -/
inductive RuleResult where
  | successful (ruleId : Option String) : RuleResult
  | failed (ruleId : Option String) (error : RuleError) : RuleResult
deriving DecidableEq, Repr

/-- The `pass` discriminant of a `RuleResult`. -/
def RuleResult.pass : RuleResult → Bool
  | .successful _ => true
  | .failed _ _ => false

/-- The (optional) `ruleId` field of a `RuleResult`. -/
def RuleResult.ruleIdOf : RuleResult → Option String
  | .successful ruleId => ruleId
  | .failed ruleId _ => ruleId

/-- The error payload of a failed `RuleResult`, `none` on a successful one. -/
def RuleResult.errorOf : RuleResult → Option RuleError
  | .successful _ => none
  | .failed _ error => some error

/-- `successful: () => ({ pass: true })` — no `ruleId` yet. -/
def successful : RuleResult := .successful none

/-- `failed: (dragee, message) => ({ pass: false, error: { drageeName: dragee.name, message } })`. -/
def failed (dragee : Dragee) (message : String) : RuleResult :=
  .failed none { ruleId := none, message := message, drageeName := dragee.name }

/-- The record `{ root, dependencies }` returned by `directDependencies`. -/
structure DirectDependencies where
  root : Dragee
  dependencies : List Dragee
deriving DecidableEq, Repr

/-- `directDependencies(root, allDragees)`: if `root.depends_on` is absent the
dependency list is empty; otherwise each key is looked up with
`allDragees.find(dragee => dragee.name === dependency)` and the `undefined`
results are filtered out (`Object.keys(...).map(find).filter(defined)` is
`List.filterMap` of `List.find?`). -/
def directDependencies (root : Dragee) (allDragees : List Dragee) : DirectDependencies :=
  match root.depends_on with
  | none => { root := root, dependencies := [] }
  | some keys =>
      { root := root
        dependencies :=
          keys.filterMap fun dependency =>
            allDragees.find? fun dragee => dragee.name == dependency }

/-- `RuleSeverity` enum: `error | warn | info`. -/
inductive RuleSeverity where
  | error
  | warn
  | info
deriving DecidableEq, Repr

/-- `DeclaredRule = { label, severity, handler }`. -/
structure DeclaredRule where
  label : String
  severity : RuleSeverity
  handler : List Dragee → List RuleResult

/-- `Rule = DeclaredRule & { id }`. -/
structure Rule extends DeclaredRule where
  id : String

/-- Modelled from the spec: `generateId` lives in the `common` module, which is
not part of this repository slice.  The spec requires a pure, deterministic
function of `(namespace, label)` that separates distinct labels within a
namespace and distinct namespaces for a fixed label; a namespace-qualified
label has exactly these properties. -/
def generateId (ns : String) (label : String) : String :=
  ns ++ "/" ++ label

/-- `declaredRuleToRule(namespace, rule) = { id: generateId(namespace, rule.label), ...rule }`. -/
def declaredRuleToRule (ns : String) (rule : DeclaredRule) : Rule :=
  { toDeclaredRule := rule, id := generateId ns rule.label }

/-- `Asserter = { namespace, rules, rule }`. -/
structure Asserter where
  «namespace» : String
  rules : List Rule
  rule : String → Option Rule

/-- `ReportStats = { rulesCount, passCount, errorsCount }`. -/
structure ReportStats where
  rulesCount : Nat
  passCount : Nat
  errorsCount : Nat
deriving DecidableEq, Repr

/-- `Report = { pass, namespace, errors, stats }`. -/
structure Report where
  pass : Bool
  «namespace» : String
  errors : List RuleError
  stats : ReportStats
deriving DecidableEq, Repr

/-- The stamping step shared by both report builders:
`results.map(result => { result.ruleId = rule.id; return result })`.
The in-place assignment becomes reconstruction with `ruleId := some id`. -/
def stampResults (id : String) (results : List RuleResult) : List RuleResult :=
  results.map fun result =>
    match result with
    | .successful _ => .successful (some id)
    | .failed _ error => .failed (some id) error

/-- The error-extraction step shared by both report builders:
`results.filter(r => !r.pass).map(r => { r.error.ruleId = r.ruleId; return r.error })`.
The type-guard filter followed by the mutating map becomes a `filterMap` that
keeps failed results and stamps the result's `ruleId` onto its error. -/
def resultsErrors (results : List RuleResult) : List RuleError :=
  results.filterMap fun result =>
    match result with
    | .successful _ => none
    | .failed ruleId error => some { error with ruleId := ruleId }

/-- The success-filter step shared by both report builders:
`results.filter(r => r.pass)`. -/
def resultsPassed (results : List RuleResult) : List RuleResult :=
  results.filter fun result => result.pass

/-- `asserterHandler(asserter, dragees)`: flat-map every rule's stamped handler
results, extract errors, filter passes, and assemble the `Report` with
`pass = errors.length === 0` and `rulesCount = asserter.rules.length`. -/
def asserterHandler (asserter : Asserter) (dragees : List Dragee) : Report :=
  let rulesResults :=
    asserter.rules.flatMap fun rule => stampResults rule.id (rule.handler dragees)
  let rulesResultsErrors := resultsErrors rulesResults
  let rulesResultsPassed := resultsPassed rulesResults
  { pass := rulesResultsErrors.length == 0
    «namespace» := asserter.«namespace»
    errors := rulesResultsErrors
    stats :=
      { errorsCount := rulesResultsErrors.length
        passCount := rulesResultsPassed.length
        rulesCount := asserter.rules.length } }

/-- `generateReportForRule(asserter, dragees, file)`: look the rule up via
`asserter.rule(file)`; on a miss return the vacuous passing report, otherwise
aggregate that one rule's stamped results exactly as `asserterHandler` does —
including `rulesCount = asserter.rules.length`. -/
def generateReportForRule (asserter : Asserter) (dragees : List Dragee)
    (file : String) : Report :=
  match asserter.rule file with
  | none =>
      { pass := true
        «namespace» := asserter.«namespace»
        errors := []
        stats := { errorsCount := 0, passCount := 0, rulesCount := 0 } }
  | some rule =>
      let ruleResults := stampResults rule.id (rule.handler dragees)
      let rulesResultsErrors := resultsErrors ruleResults
      let rulesResultsPassed := resultsPassed ruleResults
      { pass := rulesResultsErrors.length == 0
        «namespace» := asserter.«namespace»
        errors := rulesResultsErrors
        stats :=
          { errorsCount := rulesResultsErrors.length
            passCount := rulesResultsPassed.length
            rulesCount := asserter.rules.length } }

/-- `expectDragee(root, dragee, errorMsg, evalFn)`: one success or one failure
attributed to `root`. -/
def expectDragee (root : Dragee) (dragee : Dragee) (errorMsg : String)
    (evalFn : Dragee → Bool) : RuleResult :=
  if evalFn dragee then successful else failed root errorMsg

/-- `expectDragees(root, dependancies, errorMsg, evalFn)`: one success or one
failure attributed to `root`, evaluated on the dependency list. -/
def expectDragees (root : Dragee) (dependancies : List Dragee) (errorMsg : String)
    (evalFn : List Dragee → Bool) : RuleResult :=
  if evalFn dependancies then successful else failed root errorMsg

/-- `multipleExpectDragees(root, dragees, errorMsg, evalFn)`: one result per
dragee, every failure attributed to `root`. -/
def multipleExpectDragees (root : Dragee) (dragees : List Dragee) (errorMsg : String)
    (evalFn : Dragee → Bool) : List RuleResult :=
  dragees.map fun d => if evalFn d then successful else failed root errorMsg

/-! ## Helper lemmas about the shared aggregation steps -/

theorem stampResults_length (id : String) (results : List RuleResult) :
    (stampResults id results).length = results.length :=
  List.length_map _ _

theorem resultsErrors_append (l₁ l₂ : List RuleResult) :
    resultsErrors (l₁ ++ l₂) = resultsErrors l₁ ++ resultsErrors l₂ :=
  List.filterMap_append _ _ _

theorem resultsPassed_length_add_resultsErrors_length (results : List RuleResult) :
    (resultsPassed results).length + (resultsErrors results).length = results.length := by
  induction results with
  | nil => rfl
  | cons r rs ih =>
      cases r <;>
        simp [resultsPassed, resultsErrors, List.filter_cons, List.filterMap_cons,
          RuleResult.pass] at ih ⊢ <;> omega

theorem resultsErrors_stampResults (id : String) (results : List RuleResult) :
    resultsErrors (stampResults id results) =
      results.filterMap fun result =>
        match result with
        | .failed _ error => some { error with ruleId := some id }
        | .successful _ => none := by
  induction results with
  | nil => rfl
  | cons r rs ih =>
      cases r <;> simp [stampResults, resultsErrors, List.filterMap_cons] at ih ⊢ <;>
        exact ih

theorem resultsErrors_flatMap {α : Type} (l : List α) (f : α → List RuleResult) :
    resultsErrors (l.flatMap f) = l.flatMap fun a => resultsErrors (f a) := by
  induction l with
  | nil => rfl
  | cons a l ih => simp [List.flatMap_cons, resultsErrors_append, ih]

theorem stampResults_flatMap_length (rules : List Rule) (dragees : List Dragee) :
    (rules.flatMap fun rule => stampResults rule.id (rule.handler dragees)).length =
      (rules.flatMap fun rule => rule.handler dragees).length := by
  induction rules with
  | nil => rfl
  | cons r rs ih => simp [List.flatMap_cons, stampResults_length, ih]

theorem ruleIdOf_mem_stampResults (id : String) (results : List RuleResult)
    (result : RuleResult) (h : result ∈ stampResults id results) :
    result.ruleIdOf = some id := by
  simp only [stampResults, List.mem_map] at h
  obtain ⟨r, -, rfl⟩ := h
  cases r <;> rfl

theorem find?_first_occurrence {α : Type} (p : α → Bool) (l : List α) (a : α)
    (h : l.find? p = some a) :
    ∃ i : Fin l.length, l.get i = a ∧ ∀ j : Fin l.length, j.val < i.val → p (l.get j) = false := by
  induction l with
  | nil => simp at h
  | cons x xs ih =>
      rw [List.find?_cons] at h
      by_cases hx : p x
      · simp only [hx, cond_true, Option.some.injEq] at h
        subst h
        exact ⟨⟨0, Nat.succ_pos _⟩, rfl, fun j hj => absurd hj (Nat.not_lt_zero _)⟩
      · simp only [Bool.not_eq_true] at hx
        simp only [hx, cond_false] at h
        obtain ⟨i, hget, hfirst⟩ := ih h
        refine ⟨⟨i.val + 1, Nat.succ_lt_succ i.isLt⟩, hget, fun j hj => ?_⟩
        match j with
        | ⟨0, _⟩ => exact hx
        | ⟨k + 1, hk⟩ =>
            exact hfirst ⟨k, Nat.lt_of_succ_lt_succ hk⟩ (Nat.lt_of_succ_lt_succ hj)

/-! ## Claim theorems -/

/-- C1: when `asserter.rule(name)` finds a rule, `generateReportForRule`
reports `stats.rulesCount = asserter.rules.length` (the full rule inventory
size), while `pass`, `errors`, `passCount` and `errorsCount` are aggregated
from that single rule's stamped handler results only. -/
theorem generateReportForRule_found (A : Asserter) (S : List Dragee) (n : String)
    (r : Rule) (h : A.rule n = some r) :
    generateReportForRule A S n =
      { pass := (resultsErrors (stampResults r.id (r.handler S))).length == 0
        «namespace» := A.«namespace»
        errors := resultsErrors (stampResults r.id (r.handler S))
        stats :=
          { rulesCount := A.rules.length
            passCount := (resultsPassed (stampResults r.id (r.handler S))).length
            errorsCount := (resultsErrors (stampResults r.id (r.handler S))).length } } := by
  simp [generateReportForRule, h]

/-- Witness for C1: a two-rule asserter whose lookup resolves `"no-cycle"`;
the report counts both rules in `rulesCount` but aggregates only the found
rule's single failing result. -/
theorem generateReportForRule_found_witness :
    (Asserter.mk "layering"
        [Rule.mk (DeclaredRule.mk "no-cycle" RuleSeverity.error
            (fun _ => [failed ⟨"X", none⟩ "cycle detected"])) "layering/no-cycle",
         Rule.mk (DeclaredRule.mk "other" RuleSeverity.warn
            (fun _ => [successful, successful])) "layering/other"]
        (fun n =>
          if n == "no-cycle" then
            some (Rule.mk (DeclaredRule.mk "no-cycle" RuleSeverity.error
              (fun _ => [failed ⟨"X", none⟩ "cycle detected"])) "layering/no-cycle")
          else none)).rule "no-cycle" =
      some (Rule.mk (DeclaredRule.mk "no-cycle" RuleSeverity.error
        (fun _ => [failed ⟨"X", none⟩ "cycle detected"])) "layering/no-cycle") ∧
    generateReportForRule
      (Asserter.mk "layering"
        [Rule.mk (DeclaredRule.mk "no-cycle" RuleSeverity.error
            (fun _ => [failed ⟨"X", none⟩ "cycle detected"])) "layering/no-cycle",
         Rule.mk (DeclaredRule.mk "other" RuleSeverity.warn
            (fun _ => [successful, successful])) "layering/other"]
        (fun n =>
          if n == "no-cycle" then
            some (Rule.mk (DeclaredRule.mk "no-cycle" RuleSeverity.error
              (fun _ => [failed ⟨"X", none⟩ "cycle detected"])) "layering/no-cycle")
          else none))
      [] "no-cycle" =
    { pass := false
      «namespace» := "layering"
      errors := [⟨some "layering/no-cycle", "cycle detected", "X"⟩]
      stats := { rulesCount := 2, passCount := 0, errorsCount := 1 } } :=
  ⟨rfl,
    (generateReportForRule_found _ [] "no-cycle"
      (Rule.mk (DeclaredRule.mk "no-cycle" RuleSeverity.error
        (fun _ => [failed ⟨"X", none⟩ "cycle detected"])) "layering/no-cycle") rfl).trans
      (by decide)⟩

/-- C2: for every asserter and dragee set, `passCount + errorsCount` of the
full report equals the total number of `RuleResult` values returned across all
rule handlers (one invocation per rule, results concatenated). -/
theorem asserterHandler_passCount_add_errorsCount (A : Asserter) (S : List Dragee) :
    (asserterHandler A S).stats.passCount + (asserterHandler A S).stats.errorsCount =
      (A.rules.flatMap fun rule => rule.handler S).length := by
  show (resultsPassed _).length + (resultsErrors _).length = _
  rw [resultsPassed_length_add_resultsErrors_length, stampResults_flatMap_length]

/-- C3: when `asserter.rule(name)` finds no rule, `generateReportForRule`
returns the vacuous passing report: `pass = true`, no errors, all stats zero,
with the asserter's namespace. -/
theorem generateReportForRule_not_found (A : Asserter) (S : List Dragee) (n : String)
    (h : A.rule n = none) :
    generateReportForRule A S n =
      { pass := true
        «namespace» := A.«namespace»
        errors := []
        stats := { rulesCount := 0, passCount := 0, errorsCount := 0 } } := by
  simp [generateReportForRule, h]

/-- Witness for C3: an asserter whose lookup always misses yields the vacuous
passing report. -/
theorem generateReportForRule_not_found_witness :
    (Asserter.mk "ns" [] (fun _ => none)).rule "missing" = none ∧
    generateReportForRule (Asserter.mk "ns" [] (fun _ => none)) [] "missing" =
      { pass := true
        «namespace» := "ns"
        errors := []
        stats := { rulesCount := 0, passCount := 0, errorsCount := 0 } } :=
  ⟨rfl, generateReportForRule_not_found (Asserter.mk "ns" [] (fun _ => none)) [] "missing" rfl⟩

/-- C6: both report builders set `pass = true` exactly when the errors list is
empty, and copy the asserter's namespace verbatim. -/
theorem report_pass_iff_errors_empty (A : Asserter) (S : List Dragee) (n : String) :
    ((asserterHandler A S).pass = true ↔ (asserterHandler A S).errors = []) ∧
    (asserterHandler A S).«namespace» = A.«namespace» ∧
    ((generateReportForRule A S n).pass = true ↔ (generateReportForRule A S n).errors = []) ∧
    (generateReportForRule A S n).«namespace» = A.«namespace» := by
  refine ⟨?_, rfl, ?_, ?_⟩
  · have h : (asserterHandler A S).pass = ((asserterHandler A S).errors.length == 0) := rfl
    rw [h]
    simp [List.length_eq_zero]
  · cases hr : A.rule n with
    | none => simp [generateReportForRule, hr]
    | some rule =>
        have h : (generateReportForRule A S n).pass =
            ((generateReportForRule A S n).errors.length == 0) := by
          simp [generateReportForRule, hr]
        rw [h]
        simp [List.length_eq_zero]
  · cases hr : A.rule n <;> simp [generateReportForRule, hr]

/-- C7: report generation is deterministic — two successive calls of
`asserterHandler` on the same asserter and dragee set agree on every observable
field of the Report (handlers are pure functions in this embedding, as the
claim assumes of the code). -/
theorem asserterHandler_idempotent (A : Asserter) (S : List Dragee) :
    (asserterHandler A S).pass = (asserterHandler A S).pass ∧
    (asserterHandler A S).«namespace» = (asserterHandler A S).«namespace» ∧
    (asserterHandler A S).errors = (asserterHandler A S).errors ∧
    (asserterHandler A S).stats = (asserterHandler A S).stats :=
  ⟨rfl, rfl, rfl, rfl⟩

/-- C4: every stamped result carries the producing rule's id, and the full
report's errors list is exactly the failed results' error objects — each
stamped with its producing rule's id — concatenated in production order
(rules in `asserter.rules` order, results in handler order). -/
theorem asserterHandler_stamping_and_error_order (A : Asserter) (S : List Dragee) :
    (∀ rule ∈ A.rules, ∀ result ∈ stampResults rule.id (rule.handler S),
        result.ruleIdOf = some rule.id) ∧
    (asserterHandler A S).errors =
      A.rules.flatMap fun rule =>
        (rule.handler S).filterMap fun result =>
          match result with
          | .failed _ error => some { error with ruleId := some rule.id }
          | .successful _ => none := by
  constructor
  · intro rule _ result hres
    exact ruleIdOf_mem_stampResults rule.id _ result hres
  · show resultsErrors _ = _
    rw [resultsErrors_flatMap]
    congr 1
    funext rule
    exact resultsErrors_stampResults rule.id (rule.handler S)

/-- Concrete rule fixture: one failing result attributed to dragee `"X"`. -/
def noCycleRule : Rule :=
  { label := "no-cycle"
    severity := RuleSeverity.error
    handler := fun _ => [failed ⟨"X", none⟩ "cycle detected"]
    id := "layering/no-cycle" }

/-- Concrete rule fixture: two successful results. -/
def otherRule : Rule :=
  { label := "other"
    severity := RuleSeverity.warn
    handler := fun _ => [successful, successful]
    id := "layering/other" }

/-- Concrete asserter fixture with two rules and a lookup resolving only
`"no-cycle"`. -/
def layeringAsserter : Asserter :=
  { «namespace» := "layering"
    rules := [noCycleRule, otherRule]
    rule := fun n => if n == "no-cycle" then some noCycleRule else none }

/-- Witness for C4: in the two-rule fixture, the stamped failing result of the
first rule carries that rule's id. -/
theorem asserterHandler_stamping_witness :
    noCycleRule ∈ layeringAsserter.rules ∧
    RuleResult.failed (some "layering/no-cycle") ⟨none, "cycle detected", "X"⟩ ∈
      stampResults noCycleRule.id (noCycleRule.handler []) ∧
    (RuleResult.failed (some "layering/no-cycle")
      ⟨none, "cycle detected", "X"⟩).ruleIdOf = some noCycleRule.id :=
  ⟨List.Mem.head _, List.Mem.head _,
    (asserterHandler_stamping_and_error_order layeringAsserter []).1 noCycleRule
      (List.Mem.head _) _ (List.Mem.head _)⟩

theorem filterMap_find?_names (all : List Dragee) (keys : List String) :
    (keys.filterMap fun dependency =>
        all.find? fun dragee => dragee.name == dependency).map Dragee.name =
      keys.filter fun key => all.any fun dragee => dragee.name == key := by
  induction keys with
  | nil => rfl
  | cons key ks ih =>
      rw [List.filterMap_cons]
      cases hf : all.find? (fun dragee => dragee.name == key) with
      | none =>
          have hany : (all.any fun dragee => dragee.name == key) = false := by
            rw [List.any_eq_false]
            intro d hd
            simpa using List.find?_eq_none.mp hf d hd
          simp [List.filter_cons, hany, ih]
      | some d =>
          have hname : d.name = key := by simpa using List.find?_some hf
          have hany : (all.any fun dragee => dragee.name == key) = true :=
            List.any_eq_true.mpr ⟨d, List.mem_of_find?_eq_some hf, by simpa using hname⟩
          simp [List.filter_cons, hany, ih, hname]

/-- C5: `directDependencies` keeps the root, returns no dependencies when
`depends_on` is absent, and otherwise returns dragees drawn from `allDragees`
whose names are exactly the resolvable `depends_on` keys in key iteration
order, silently omitting keys that match no candidate. -/
theorem directDependencies_spec (root : Dragee) (all : List Dragee) :
    (directDependencies root all).root = root ∧
    (root.depends_on = none → (directDependencies root all).dependencies = []) ∧
    ∀ keys, root.depends_on = some keys →
      ((directDependencies root all).dependencies.map Dragee.name =
        keys.filter fun key => all.any fun dragee => dragee.name == key) ∧
      ∀ d ∈ (directDependencies root all).dependencies, d ∈ all := by
  refine ⟨?_, fun h => by simp [directDependencies, h], fun keys h => ?_⟩
  · cases h : root.depends_on <;> simp [directDependencies, h]
  · simp only [directDependencies, h]
    constructor
    · exact filterMap_find?_names all keys
    · intro d hd
      rw [List.mem_filterMap] at hd
      obtain ⟨key, -, hfind⟩ := hd
      exact List.mem_of_find?_eq_some hfind

/-- Witness for C5: with keys `["a", "zz", "b"]` over candidates named `"a"`
and `"b"`, the resolved names are `["a", "b"]` (`"zz"` silently dropped), an
absent `depends_on` yields no dependencies, and resolved dragees come from the
candidate list. -/
theorem directDependencies_spec_witness :
    (⟨"R", none⟩ : Dragee).depends_on = none ∧
    (directDependencies ⟨"R", none⟩ []).dependencies = [] ∧
    ((directDependencies ⟨"R", some ["a", "zz", "b"]⟩
        [⟨"a", none⟩, ⟨"b", none⟩]).dependencies.map Dragee.name = ["a", "b"]) ∧
    (⟨"a", none⟩ : Dragee) ∈ [(⟨"a", none⟩ : Dragee), ⟨"b", none⟩] :=
  ⟨rfl,
    (directDependencies_spec ⟨"R", none⟩ []).2.1 rfl,
    ((directDependencies_spec ⟨"R", some ["a", "zz", "b"]⟩
        [⟨"a", none⟩, ⟨"b", none⟩]).2.2 ["a", "zz", "b"] rfl).1.trans (by decide),
    ((directDependencies_spec ⟨"R", some ["a", "zz", "b"]⟩
        [⟨"a", none⟩, ⟨"b", none⟩]).2.2 ["a", "zz", "b"] rfl).2 ⟨"a", none⟩ (by decide)⟩

/-- C10: every resolved dependency is the first dragee of `allDragees` (in
list order) bearing its name — no dragee earlier in the list shares the name,
so later duplicates are never selected. -/
theorem directDependencies_first_match (root : Dragee) (all : List Dragee)
    (keys : List String) (h : root.depends_on = some keys) (d : Dragee)
    (hd : d ∈ (directDependencies root all).dependencies) :
    ∃ i : Fin all.length, all.get i = d ∧
      ∀ j : Fin all.length, j.val < i.val → (all.get j).name ≠ d.name := by
  simp only [directDependencies, h] at hd
  rw [List.mem_filterMap] at hd
  obtain ⟨key, -, hfind⟩ := hd
  have hname : d.name = key := by simpa using List.find?_some hfind
  obtain ⟨i, hget, hfirst⟩ := find?_first_occurrence _ all d hfind
  refine ⟨i, hget, fun j hj heq => ?_⟩
  have hj' : ¬ (all.get j).name = key := by simpa using hfirst j hj
  exact hj' (heq.trans hname)

/-- Witness for C10: with duplicate candidate names `"a"`, the key `"a"`
resolves to the first candidate, which no earlier candidate shadows. -/
theorem directDependencies_first_match_witness :
    (⟨"R", some ["a"]⟩ : Dragee).depends_on = some ["a"] ∧
    (⟨"a", none⟩ : Dragee) ∈
      (directDependencies ⟨"R", some ["a"]⟩
        [⟨"a", none⟩, ⟨"a", some []⟩]).dependencies ∧
    ∃ i : Fin ([(⟨"a", none⟩ : Dragee), ⟨"a", some []⟩] : List Dragee).length,
      ([(⟨"a", none⟩ : Dragee), ⟨"a", some []⟩] : List Dragee).get i = ⟨"a", none⟩ ∧
      ∀ j : Fin ([(⟨"a", none⟩ : Dragee), ⟨"a", some []⟩] : List Dragee).length,
        j.val < i.val →
          (([(⟨"a", none⟩ : Dragee), ⟨"a", some []⟩] : List Dragee).get j).name ≠
            (⟨"a", none⟩ : Dragee).name :=
  ⟨rfl, by decide,
    directDependencies_first_match ⟨"R", some ["a"]⟩
      [⟨"a", none⟩, ⟨"a", some []⟩] ["a"] rfl ⟨"a", none⟩ (by decide)⟩

/-- C8: `generateId` is a pure, deterministic function of `(namespace, label)`
— equal inputs give equal ids, distinct labels within one namespace give
distinct ids, and distinct namespaces with the same label give distinct ids. -/
theorem generateId_deterministic_and_separating :
    (∀ ns label, generateId ns label = generateId ns label) ∧
    (∀ ns l₁ l₂, l₁ ≠ l₂ → generateId ns l₁ ≠ generateId ns l₂) ∧
    (∀ ns₁ ns₂ label, ns₁ ≠ ns₂ → generateId ns₁ label ≠ generateId ns₂ label) := by
  refine ⟨fun _ _ => rfl, fun ns l₁ l₂ hne heq => hne ?_, fun ns₁ ns₂ label hne heq => hne ?_⟩
  · have hdata : (ns ++ "/").data ++ l₁.data = (ns ++ "/").data ++ l₂.data := by
      have := congrArg String.data heq
      simpa [generateId, String.data_append] using this
    exact String.ext (List.append_cancel_left hdata)
  · have hdata : (ns₁.data ++ "/".data) ++ label.data = (ns₂.data ++ "/".data) ++ label.data := by
      have := congrArg String.data heq
      simpa [generateId, String.data_append] using this
    exact String.ext (List.append_cancel_right (List.append_cancel_right hdata))

/-- Witness for C8: concrete distinct labels and namespaces produce distinct
ids. -/
theorem generateId_separating_witness :
    ("a" : String) ≠ "b" ∧ generateId "ns" "a" ≠ generateId "ns" "b" ∧
    ("ns1" : String) ≠ "ns2" ∧ generateId "ns1" "label" ≠ generateId "ns2" "label" :=
  ⟨by decide,
    generateId_deterministic_and_separating.2.1 "ns" "a" "b" (by decide),
    by decide,
    generateId_deterministic_and_separating.2.2 "ns1" "ns2" "label" (by decide)⟩

/-- C9: every failing result built by `failed`, `expectDragee`, `expectDragees`
or `multipleExpectDragees` attributes its error to the root dragee under test
(`drageeName = root.name`, never an evaluated dependency's name) and carries
the supplied message. -/
theorem failure_attributed_to_root (root dragee : Dragee) (msg : String)
    (evalFn : Dragee → Bool) (ds : List Dragee) (evalFnL : List Dragee → Bool)
    (e : RuleError) :
    ((failed root msg).errorOf = some e → e.drageeName = root.name ∧ e.message = msg) ∧
    ((expectDragee root dragee msg evalFn).errorOf = some e →
      e.drageeName = root.name ∧ e.message = msg) ∧
    ((expectDragees root ds msg evalFnL).errorOf = some e →
      e.drageeName = root.name ∧ e.message = msg) ∧
    ∀ r ∈ multipleExpectDragees root ds msg evalFn, r.errorOf = some e →
      e.drageeName = root.name ∧ e.message = msg := by
  have hfail : ∀ e' : RuleError, (failed root msg).errorOf = some e' →
      e'.drageeName = root.name ∧ e'.message = msg := by
    intro e' h
    have he := Option.some.inj h
    rw [← he]
    exact ⟨rfl, rfl⟩
  refine ⟨hfail e, ?_, ?_, ?_⟩
  · intro h
    unfold expectDragee at h
    cases hev : evalFn dragee with
    | true => rw [hev] at h; simp [successful, RuleResult.errorOf] at h
    | false => rw [hev] at h; exact hfail e h
  · intro h
    unfold expectDragees at h
    cases hev : evalFnL ds with
    | true => rw [hev] at h; simp [successful, RuleResult.errorOf] at h
    | false => rw [hev] at h; exact hfail e h
  · intro r hr h
    unfold multipleExpectDragees at hr
    rw [List.mem_map] at hr
    obtain ⟨d', -, rfl⟩ := hr
    cases hev : evalFn d' with
    | true => rw [hev] at h; simp [successful, RuleResult.errorOf] at h
    | false => rw [hev] at h; exact hfail e h

/-- Witness for C9: with an always-false predicate over root `"X"` and
dependency `"Y"`, all four constructors yield errors attributed to `"X"` with
the supplied message. -/
theorem failure_attributed_to_root_witness :
    (failed ⟨"X", none⟩ "boom").errorOf = some ⟨none, "boom", "X"⟩ ∧
    (expectDragee ⟨"X", none⟩ ⟨"Y", none⟩ "boom" (fun _ => false)).errorOf =
      some ⟨none, "boom", "X"⟩ ∧
    (expectDragees ⟨"X", none⟩ [⟨"Y", none⟩] "boom" (fun _ => false)).errorOf =
      some ⟨none, "boom", "X"⟩ ∧
    failed ⟨"X", none⟩ "boom" ∈
      multipleExpectDragees ⟨"X", none⟩ [⟨"Y", none⟩] "boom" (fun _ => false) ∧
    (⟨none, "boom", "X"⟩ : RuleError).drageeName = (⟨"X", none⟩ : Dragee).name ∧
    (⟨none, "boom", "X"⟩ : RuleError).message = "boom" :=
  ⟨rfl, rfl, rfl, List.Mem.head _,
    (failure_attributed_to_root ⟨"X", none⟩ ⟨"Y", none⟩ "boom" (fun _ => false)
      [⟨"Y", none⟩] (fun _ => false) ⟨none, "boom", "X"⟩).2.2.2
      (failed ⟨"X", none⟩ "boom") (List.Mem.head _) rfl⟩
